import Mathlib

/-!
Verification development for the InvestmentTracker repository.

The definitions below are a shallow embedding of `src/utils.py`.
Strings are modelled as `List Char` (Python strings compare
lexicographically by code point, which the `List Char` linear order
mirrors); monetary amounts, quantities and prices are modelled as `ℚ`.
The Google-Sheets worksheet behind the store is modelled as
`Option (List row)`: `some rows` is a readable sheet holding `rows`,
`none` is an unreadable sheet (a read that raises).  The price oracle
(`get_current_price`, backed by yfinance) is an external collaborator
and is modelled as an abstract function `Str → Str → Option ℚ`
returning `none` when the lookup fails.
-/

abbrev Str := List Char

/-- Python's `str.upper()` on our `List Char` strings. -/
def upperStr (s : Str) : Str := s.map Char.toUpper

/-- A row of the `investments` worksheet (`src/utils.py`, header
`id, date, asset_type, ticker, amount, quantity`). -/
structure Txn where
  id : Str
  date : Str
  asset_type : Str
  ticker : Str
  amount : ℚ
  quantity : ℚ
deriving DecidableEq

/-- A row of the `managed_assets` worksheet (`id, ticker, asset_type`). -/
structure ManagedAsset where
  id : Str
  ticker : Str
  asset_type : Str
deriving DecidableEq

/-- `add_transaction` (utils.py:56): reads the sheet, builds a one-row
frame with a fresh uuid, the formatted date, the ticker upper-cased and
`float` amount/quantity, concatenates it after the existing rows and
writes the result back.  The fresh uuid and the formatted date are the
`newId`/`date` parameters here.  There is no validation of any kind. -/
def add_transaction (rows : List Txn) (newId date asset_type ticker : Str)
    (amount quantity : ℚ) : List Txn :=
  rows ++ [{ id := newId, date := date, asset_type := asset_type,
             ticker := upperStr ticker, amount := amount, quantity := quantity }]

/-- Comparator used by `df.sort_values(by="date", ascending=False)`. -/
def dateDescBool (a b : Txn) : Bool := decide (b.date ≤ a.date)

/-- `get_transactions` (utils.py:73): returns all rows sorted by date
descending; on an unreadable sheet the `except` branch returns an empty
frame, and an empty sheet yields an empty frame. -/
def get_transactions (sheet : Option (List Txn)) : List Txn :=
  match sheet with
  | none => []
  | some rows => rows.mergeSort dateDescBool

/-- Comparator used by `df.sort_values(by="ticker")`. -/
def tickerAscBool (a b : ManagedAsset) : Bool := decide (a.ticker ≤ b.ticker)

/-- `get_managed_assets` (utils.py:118): empty or unreadable sheet gives
an empty frame; otherwise the rows are filtered by `asset_type` when the
argument is truthy (Python: not `None` and not the empty string) and
sorted by ticker.  Note the source sorts by ticker only, in the filtered
and in the unfiltered case alike. -/
def get_managed_assets (sheet : Option (List ManagedAsset)) (asset_type : Option Str) :
    List ManagedAsset :=
  match sheet with
  | none => []
  | some rows =>
    if rows.isEmpty then []
    else
      let df := match asset_type with
        | none => rows
        | some t => if t = [] then rows else rows.filter (fun r => r.asset_type = t)
      df.mergeSort tickerAscBool

/-- `add_managed_asset` (utils.py:133): if the upper-cased ticker already
occurs among the upper-cased stored tickers, return `False` without
writing; otherwise append a row with the ticker upper-cased and return
`True`.  The returned pair is (return value, resulting sheet). -/
def add_managed_asset (rows : List ManagedAsset) (newId ticker asset_type : Str) :
    Bool × List ManagedAsset :=
  if upperStr ticker ∈ rows.map (fun r => upperStr r.ticker) then
    (false, rows)
  else
    (true, rows ++ [{ id := newId, ticker := upperStr ticker, asset_type := asset_type }])

/-- The composite grouping key of `df.groupby(['ticker', 'asset_type'])`. -/
def txnKey (t : Txn) : Str × Str := (t.ticker, t.asset_type)

/-- Comparator on group keys: pandas sorts group keys lexicographically
by (ticker, asset_type). -/
def keyLeBool (a b : Str × Str) : Bool :=
  decide (a.1 < b.1) || (decide (a.1 = b.1) && decide (a.2 ≤ b.2))

/-- The distinct (ticker, asset_type) keys of a frame, in the sorted
order pandas' `groupby` produces. -/
def groupKeys (df : List Txn) : List (Str × Str) :=
  ((df.map txnKey).dedup).mergeSort keyLeBool

/-- Sum of `amount` over the rows of `df` with grouping key `k`. -/
def sumAmount (df : List Txn) (k : Str × Str) : ℚ :=
  ((df.filter (fun t => txnKey t = k)).map Txn.amount).sum

/-- Sum of `quantity` over the rows of `df` with grouping key `k`. -/
def sumQuantity (df : List Txn) (k : Str × Str) : ℚ :=
  ((df.filter (fun t => txnKey t = k)).map Txn.quantity).sum

/-- A row of `df.groupby(['ticker','asset_type'])[['amount','quantity']].sum().reset_index()`. -/
structure GroupRow where
  ticker : Str
  asset_type : Str
  amount : ℚ
  quantity : ℚ
deriving DecidableEq

/-- The grouped frame of `get_portfolio_stats` (utils.py:201). -/
def groupby (df : List Txn) : List GroupRow :=
  (groupKeys df).map fun k =>
    { ticker := k.1, asset_type := k.2, amount := sumAmount df k, quantity := sumQuantity df k }

/-- One entry of the `stats` list built in the loop of
`get_portfolio_stats` (utils.py:215). -/
structure Line where
  Ticker : Str
  Type' : Str
  Invested : ℚ
  Quantity : ℚ
  CurrentPrice : Option ℚ
  CurrentValue : ℚ
  ProfitLoss : ℚ
  ReturnPct : ℚ
deriving DecidableEq

/-- The price oracle: `get_current_price(ticker, asset_type)`, an
external collaborator returning a price or `None`. -/
abbrev PriceOracle := Str → Str → Option ℚ

/-- The loop body of `get_portfolio_stats` (utils.py:206-224) for one
grouped row.  `current_value = (quantity * current_price) if
current_price else 0` uses Python truthiness: both `None` and a zero
price take the `else 0` branch. -/
def mkLine (price : PriceOracle) (g : GroupRow) : Line :=
  let current_price := price g.ticker g.asset_type
  let current_value : ℚ :=
    match current_price with
    | none => 0
    | some p => if p = 0 then 0 else g.quantity * p
  { Ticker := g.ticker, Type' := g.asset_type, Invested := g.amount, Quantity := g.quantity,
    CurrentPrice := current_price, CurrentValue := current_value,
    ProfitLoss := current_value - g.amount,
    ReturnPct := if g.amount > 0 then (current_value - g.amount) / g.amount * 100 else 0 }

/-- The dictionary returned by `get_portfolio_stats` (utils.py:229). -/
structure Stats where
  total_invested : ℚ
  total_current_value : ℚ
  details : List Line
deriving DecidableEq

/-- The non-empty branch of `get_portfolio_stats`: group the frame,
build one line per group, and accumulate the two totals over the loop. -/
def mkStats (price : PriceOracle) (df : List Txn) : Stats :=
  let grouped := groupby df
  let details := grouped.map (mkLine price)
  { total_invested := (grouped.map GroupRow.amount).sum,
    total_current_value := (details.map Line.CurrentValue).sum,
    details := details }

/-- `get_portfolio_stats` (utils.py:190): fetch the transactions, return
`None` on an empty frame, otherwise group, price and total them. -/
def get_portfolio_stats (price : PriceOracle) (sheet : Option (List Txn)) : Option Stats :=
  let df := get_transactions sheet
  if df.isEmpty then none else some (mkStats price df)

/-! ### Helper lemmas -/

theorem get_transactions_perm (rows : List Txn) :
    (get_transactions (some rows)).Perm rows :=
  List.mergeSort_perm rows dateDescBool

theorem get_transactions_ne_nil {rows : List Txn} (h : rows ≠ []) :
    get_transactions (some rows) ≠ [] := by
  intro hcon
  apply h
  have hp := get_transactions_perm rows
  rw [hcon] at hp
  exact hp.symm.eq_nil

theorem gps_some (price : PriceOracle) {rows : List Txn} (h : rows ≠ []) :
    get_portfolio_stats price (some rows) =
      some (mkStats price (get_transactions (some rows))) := by
  have h2 : ¬ ((get_transactions (some rows)).isEmpty = true) := by
    rw [List.isEmpty_iff]
    exact get_transactions_ne_nil h
  simp only [get_portfolio_stats]
  rw [if_neg h2]

theorem mkLine_Ticker (price : PriceOracle) (g : GroupRow) :
    (mkLine price g).Ticker = g.ticker := rfl

theorem mkLine_Type (price : PriceOracle) (g : GroupRow) :
    (mkLine price g).Type' = g.asset_type := rfl

theorem mkLine_Invested (price : PriceOracle) (g : GroupRow) :
    (mkLine price g).Invested = g.amount := rfl

theorem mkLine_Quantity (price : PriceOracle) (g : GroupRow) :
    (mkLine price g).Quantity = g.quantity := rfl

theorem mkLine_CurrentValue_none {price : PriceOracle} {g : GroupRow}
    (h : price g.ticker g.asset_type = none) :
    (mkLine price g).CurrentValue = 0 := by
  simp [mkLine, h]

theorem mkLine_ProfitLoss (price : PriceOracle) (g : GroupRow) :
    (mkLine price g).ProfitLoss = (mkLine price g).CurrentValue - g.amount := rfl

theorem mkLine_ReturnPct_of_not_pos {price : PriceOracle} {g : GroupRow}
    (h : ¬ g.amount > 0) : (mkLine price g).ReturnPct = 0 := by
  simp only [mkLine]
  rw [if_neg h]

theorem mkLine_congr_of_price_eq {p1 p2 : PriceOracle} {g : GroupRow}
    (h : p1 g.ticker g.asset_type = p2 g.ticker g.asset_type) :
    mkLine p1 g = mkLine p2 g := by
  simp only [mkLine, h]

theorem groupKeys_nodup (df : List Txn) : (groupKeys df).Nodup :=
  ((List.mergeSort_perm _ keyLeBool).nodup_iff).mpr (List.nodup_dedup _)

theorem mem_groupKeys {df : List Txn} {k : Str × Str} :
    k ∈ groupKeys df ↔ k ∈ df.map txnKey := by
  unfold groupKeys
  rw [List.mem_mergeSort, List.mem_dedup]

theorem groupby_map_key (df : List Txn) :
    (groupby df).map (fun g => (g.ticker, g.asset_type)) = groupKeys df := by
  unfold groupby
  rw [List.map_map]
  have hcomp : ((fun g : GroupRow => (g.ticker, g.asset_type)) ∘ fun k : Str × Str =>
      ({ ticker := k.1, asset_type := k.2, amount := sumAmount df k,
         quantity := sumQuantity df k } : GroupRow)) = id := rfl
  rw [hcomp, List.map_id]

theorem sum_map_ite_eq {α : Type} [DecidableEq α] (x : α) (a : ℚ) :
    ∀ ks : List α, ks.Nodup → x ∈ ks →
      (ks.map (fun k => if x = k then a else 0)).sum = a := by
  intro ks
  induction ks with
  | nil => intro _ hx; exact absurd hx (List.not_mem_nil x)
  | cons k ks ih =>
    intro hnd hx
    rcases List.mem_cons.mp hx with hk | hk
    · subst hk
      have hzero : ((ks.map (fun k => if x = k then a else 0))).sum = 0 := by
        apply List.sum_eq_zero
        intro y hy
        obtain ⟨k', hk', rfl⟩ := List.mem_map.mp hy
        have : x ≠ k' := fun hxk => (List.nodup_cons.mp hnd).1 (hxk ▸ hk')
        rw [if_neg this]
      simp [hzero]
    · have hne : x ≠ k := fun hxk => (List.nodup_cons.mp hnd).1 (hxk ▸ hk)
      rw [List.map_cons, List.sum_cons, if_neg hne, zero_add]
      exact ih (List.nodup_cons.mp hnd).2 hk

theorem sum_filter_partition (f : Txn → ℚ) (ks : List (Str × Str)) :
    ∀ df : List Txn, ks.Nodup → (∀ t ∈ df, txnKey t ∈ ks) →
      (ks.map (fun k => ((df.filter (fun t => txnKey t = k)).map f).sum)).sum
        = (df.map f).sum := by
  intro df
  induction df with
  | nil =>
    intro _ _
    simp
  | cons t ds ih =>
    intro hnd hcov
    have hstep : ks.map (fun k => (((t :: ds).filter (fun s => txnKey s = k)).map f).sum)
        = ks.map (fun k =>
            (if txnKey t = k then f t else 0)
              + ((ds.filter (fun s => txnKey s = k)).map f).sum) := by
      apply List.map_congr_left
      intro k _
      by_cases hk : txnKey t = k
      · simp [List.filter_cons, hk]
      · simp [List.filter_cons, hk]
    rw [hstep, List.sum_map_add, sum_map_ite_eq (txnKey t) (f t) ks hnd
      (hcov t (List.mem_cons_self t ds)),
      ih hnd (fun s hs => hcov s (List.mem_cons_of_mem t hs)), List.map_cons, List.sum_cons]

theorem total_invested_groupby (df : List Txn) :
    ((groupby df).map GroupRow.amount).sum = (df.map Txn.amount).sum := by
  unfold groupby
  rw [List.map_map]
  have hcomp : (GroupRow.amount ∘ fun k : Str × Str =>
      ({ ticker := k.1, asset_type := k.2, amount := sumAmount df k,
         quantity := sumQuantity df k } : GroupRow)) = fun k => sumAmount df k := rfl
  rw [hcomp]
  have := sum_filter_partition Txn.amount (groupKeys df) df (groupKeys_nodup df)
    (fun t ht => mem_groupKeys.mpr (List.mem_map_of_mem txnKey ht))
  simpa [sumAmount] using this

theorem sumAmount_perm {df1 df2 : List Txn} (h : df1.Perm df2) (k : Str × Str) :
    sumAmount df1 k = sumAmount df2 k :=
  ((h.filter _).map _).sum_eq

theorem sumQuantity_perm {df1 df2 : List Txn} (h : df1.Perm df2) (k : Str × Str) :
    sumQuantity df1 k = sumQuantity df2 k :=
  ((h.filter _).map _).sum_eq

theorem mkStats_details (price : PriceOracle) (df : List Txn) :
    (mkStats price df).details = (groupby df).map (mkLine price) := rfl

/-! ### Concrete fixtures -/

def strBTC : Str := ['B', 'T', 'C']

def strCrypto : Str := ['C', 'r', 'y', 'p', 't', 'o']

def strStock : Str := ['S', 't', 'o', 'c', 'k']

/-- An oracle whose every lookup fails. -/
def priceNone : PriceOracle := fun _ _ => none

/-- A stored transaction with amount 0 (the store accepted it: there is
no validation in `add_transaction`). -/
def txZero : Txn :=
  { id := ['0'], date := ['d'], asset_type := strStock, ticker := strBTC,
    amount := 0, quantity := 1 }

def maBTC : ManagedAsset := { id := ['1'], ticker := strBTC, asset_type := strCrypto }

/-! ### Claims -/

/-- Claim C1, counterexample: calling `add_transaction` with the
non-positive amount -5 does not fail and does persist the record — the
store silently accepts it, so the claimed `ValidationError` behaviour is
false on the code. -/
theorem C1_counterexample :
    add_transaction [] ['i', 'd', '1'] ['2', '0', '2', '4'] strStock ['a', 'a', 'p', 'l']
        (-5) 1 =
      [{ id := ['i', 'd', '1'], date := ['2', '0', '2', '4'], asset_type := strStock,
         ticker := ['A', 'A', 'P', 'L'], amount := -5, quantity := 1 }] ∧
    (-5 : ℚ) ≤ 0 := by
  constructor
  · simp only [add_transaction, List.nil_append]
    have hup : upperStr ['a', 'a', 'p', 'l'] = ['A', 'A', 'P', 'L'] := by decide
    rw [hup]
  · norm_num

/-- Claim C1, amended: `add_transaction` performs no validation at all —
for every input, including amount ≤ 0 or quantity ≤ 0, it persists the
record (with the ticker upper-cased) and signals no error; non-positive
inputs are rejected only by the caller's UI check before the store is
reached. -/
theorem C1_store_accepts_nonpositive (rows : List Txn)
    (newId date asset_type ticker : Str) (amount quantity : ℚ)
    (h : amount ≤ 0 ∨ quantity ≤ 0) :
    add_transaction rows newId date asset_type ticker amount quantity =
      rows ++ [{ id := newId, date := date, asset_type := asset_type,
                 ticker := upperStr ticker, amount := amount, quantity := quantity }] := rfl

/-- Witness for C1: the non-positive amount 0 is persisted unchanged. -/
theorem C1_store_accepts_nonpositive_witness :
    add_transaction [] ['i'] ['d'] strStock strBTC 0 1 =
      [] ++ [{ id := ['i'], date := ['d'], asset_type := strStock,
               ticker := upperStr strBTC, amount := 0, quantity := 1 }] :=
  C1_store_accepts_nonpositive [] ['i'] ['d'] strStock strBTC 0 1 (Or.inl (le_refl 0))

/-- Claim C3: after `add_transaction`, `get_transactions` contains a
record equal to the input in date, asset_type, ticker (upper-cased),
amount and quantity — every field except the store-assigned id. -/
theorem C3_roundtrip (rows : List Txn) (newId date asset_type ticker : Str)
    (amount quantity : ℚ) :
    ∃ r ∈ get_transactions
        (some (add_transaction rows newId date asset_type ticker amount quantity)),
      r.date = date ∧ r.asset_type = asset_type ∧ r.ticker = upperStr ticker ∧
      r.amount = amount ∧ r.quantity = quantity := by
  refine ⟨{ id := newId, date := date, asset_type := asset_type, ticker := upperStr ticker,
            amount := amount, quantity := quantity }, ?_, rfl, rfl, rfl, rfl, rfl⟩
  rw [(get_transactions_perm _).mem_iff]
  simp [add_transaction]

/-- Claim C4: `get_transactions` returns all stored records sorted by
date descending, and returns the empty sequence — rather than an
error — on an unreadable store and on an empty store. -/
theorem C4_get_transactions (rows : List Txn) :
    get_transactions none = [] ∧
    get_transactions (some []) = [] ∧
    (get_transactions (some rows)).Perm rows ∧
    (get_transactions (some rows)).Pairwise (fun a b => b.date ≤ a.date) := by
  refine ⟨rfl, by simp [get_transactions], get_transactions_perm rows, ?_⟩
  have htrans : ∀ a b c : Txn, dateDescBool a b → dateDescBool b c → dateDescBool a c := by
    intro a b c hab hbc
    exact decide_eq_true (le_trans (of_decide_eq_true hbc) (of_decide_eq_true hab))
  have htotal : ∀ a b : Txn, dateDescBool a b || dateDescBool b a := by
    intro a b
    simp only [dateDescBool, Bool.or_eq_true, decide_eq_true_eq]
    exact le_total b.date a.date
  have hs := List.sorted_mergeSort htrans htotal rows
  exact hs.imp fun h => of_decide_eq_true h

/-- Claim C8: `get_portfolio_stats` on a store with zero transactions
returns `none` (absence of a result), not an empty result object; the
same holds for an unreadable store, whose fetch degrades to zero
transactions. -/
theorem C8_empty_store (price : PriceOracle) :
    get_portfolio_stats price (some []) = none ∧ get_portfolio_stats price none = none := by
  constructor
  · simp [get_portfolio_stats, get_transactions]
  · rfl

/-- Claim C5: whenever the oracle lookup for a group returns `none`,
that line has `CurrentValue = 0` and `ProfitLoss = -Invested`, the
overall call still returns a result, and each group's line depends only
on the oracle's answer for its own (ticker, asset_type) key, so one
group's lookup failure cannot affect any other group's line. -/
theorem C5_price_unavailable (rows : List Txn) (price : PriceOracle) (hne : rows ≠ []) :
    ∃ stats, get_portfolio_stats price (some rows) = some stats ∧
      (∀ line ∈ stats.details, price line.Ticker line.Type' = none →
        line.CurrentValue = 0 ∧ line.ProfitLoss = -line.Invested) ∧
      (∀ price2 : PriceOracle, ∀ g : GroupRow,
        price g.ticker g.asset_type = price2 g.ticker g.asset_type →
        mkLine price g = mkLine price2 g) := by
  refine ⟨_, gps_some price hne, ?_, fun p2 g h => mkLine_congr_of_price_eq h⟩
  intro line hline hnone
  rw [mkStats_details] at hline
  obtain ⟨g, hg, rfl⟩ := List.mem_map.mp hline
  have hnone' : price g.ticker g.asset_type = none := hnone
  have hcv := mkLine_CurrentValue_none hnone'
  refine ⟨hcv, ?_⟩
  rw [mkLine_ProfitLoss, hcv, mkLine_Invested, zero_sub]

/-- Witness for C5 at the one-transaction store `[txZero]` and the
always-failing oracle. -/
theorem C5_price_unavailable_witness :
    ∃ stats, get_portfolio_stats priceNone (some [txZero]) = some stats ∧
      (∀ line ∈ stats.details, priceNone line.Ticker line.Type' = none →
        line.CurrentValue = 0 ∧ line.ProfitLoss = -line.Invested) ∧
      (∀ price2 : PriceOracle, ∀ g : GroupRow,
        priceNone g.ticker g.asset_type = price2 g.ticker g.asset_type →
        mkLine priceNone g = mkLine price2 g) :=
  C5_price_unavailable [txZero] priceNone (List.cons_ne_nil txZero [])

/-- Claim C6: a portfolio line whose `Invested` is 0 has `ReturnPct` 0 —
the division is guarded by `invested > 0` — and the stats call still
returns a result. -/
theorem C6_return_pct_guard (rows : List Txn) (price : PriceOracle) (hne : rows ≠ []) :
    ∃ stats, get_portfolio_stats price (some rows) = some stats ∧
      ∀ line ∈ stats.details, line.Invested = 0 → line.ReturnPct = 0 := by
  refine ⟨_, gps_some price hne, ?_⟩
  intro line hline h0
  rw [mkStats_details] at hline
  obtain ⟨g, hg, rfl⟩ := List.mem_map.mp hline
  have h0' : g.amount = 0 := h0
  exact mkLine_ReturnPct_of_not_pos (by rw [h0']; exact lt_irrefl 0)

/-- Witness for C6 at the store holding a single amount-0 transaction. -/
theorem C6_return_pct_guard_witness :
    ∃ stats, get_portfolio_stats priceNone (some [txZero]) = some stats ∧
      ∀ line ∈ stats.details, line.Invested = 0 → line.ReturnPct = 0 :=
  C6_return_pct_guard [txZero] priceNone (List.cons_ne_nil txZero [])

/-- Claim C7: `add_managed_asset` returns `false` and leaves the list
unchanged when a case-insensitive duplicate of the ticker exists, and
otherwise returns `true` and appends the ticker upper-cased; in
particular adding "btc" when "BTC" exists returns `false` and adds no
row. -/
theorem C7_add_managed_asset (rows : List ManagedAsset) (newId ticker asset_type : Str) :
    ((upperStr ticker ∈ rows.map (fun r => upperStr r.ticker)) →
        add_managed_asset rows newId ticker asset_type = (false, rows)) ∧
    ((upperStr ticker ∉ rows.map (fun r => upperStr r.ticker)) →
        add_managed_asset rows newId ticker asset_type =
          (true, rows ++ [{ id := newId, ticker := upperStr ticker,
                            asset_type := asset_type }])) ∧
    add_managed_asset [maBTC] ['2'] ['b', 't', 'c'] strCrypto = (false, [maBTC]) := by
  refine ⟨fun h => ?_, fun h => ?_, ?_⟩
  · simp only [add_managed_asset, if_pos h]
  · simp only [add_managed_asset, if_neg h]
  · have hmem : upperStr ['b', 't', 'c'] ∈ [maBTC].map (fun r => upperStr r.ticker) := by
      decide
    simp only [add_managed_asset, if_pos hmem]

/-- Witness for C7: the duplicate branch at the concrete store
`[maBTC]`. -/
theorem C7_add_managed_asset_witness :
    add_managed_asset [maBTC] ['9'] ['b', 't', 'c'] strCrypto = (false, [maBTC]) :=
  (C7_add_managed_asset [maBTC] ['9'] ['b', 't', 'c'] strCrypto).1 (by decide)

/-- Claim C10: for a non-empty store, `total_invested` equals the sum of
`amount` over all individual transactions — grouping conserves the
total — and `total_current_value` equals the sum of the per-line
`CurrentValue` across the returned lines. -/
theorem C10_totals (rows : List Txn) (price : PriceOracle) (hne : rows ≠ []) :
    ∃ stats, get_portfolio_stats price (some rows) = some stats ∧
      stats.total_invested = (rows.map Txn.amount).sum ∧
      stats.total_current_value = (stats.details.map Line.CurrentValue).sum := by
  refine ⟨_, gps_some price hne, ?_, rfl⟩
  show ((groupby (get_transactions (some rows))).map GroupRow.amount).sum = _
  rw [total_invested_groupby]
  exact ((get_transactions_perm rows).map Txn.amount).sum_eq

/-- Witness for C10 at the one-transaction store `[txZero]`. -/
theorem C10_totals_witness :
    ∃ stats, get_portfolio_stats priceNone (some [txZero]) = some stats ∧
      stats.total_invested = ([txZero].map Txn.amount).sum ∧
      stats.total_current_value = (stats.details.map Line.CurrentValue).sum :=
  C10_totals [txZero] priceNone (List.cons_ne_nil txZero [])

/-- The two BTC transactions of the grouping example:
(BTC, Crypto, 100, 0.01) and (BTC, Crypto, 50, 0.005). -/
def btcTx1 : Txn :=
  { id := ['1'], date := ['d'], asset_type := strCrypto, ticker := strBTC,
    amount := 100, quantity := 1 / 100 }

def btcTx2 : Txn :=
  { id := ['2'], date := ['d'], asset_type := strCrypto, ticker := strBTC,
    amount := 50, quantity := 1 / 200 }

/-- Claim C2: `get_portfolio_stats` groups by the composite key
(ticker, asset_type): the returned lines carry pairwise-distinct keys
(so a ticker under two asset types yields two independent lines), every
transaction's key is represented, each line's `Invested`/`Quantity` is
the sum of `amount`/`quantity` over the transactions with that key, and
in particular the two-transaction BTC/Crypto example yields exactly one
line with `Invested = 150` and `Quantity = 0.015`. -/
theorem C2_grouping (rows : List Txn) (price : PriceOracle) (hne : rows ≠ []) :
    (∃ stats, get_portfolio_stats price (some rows) = some stats ∧
      (stats.details.map (fun l => (l.Ticker, l.Type'))).Nodup ∧
      (∀ t ∈ rows, (t.ticker, t.asset_type) ∈
        stats.details.map (fun l => (l.Ticker, l.Type'))) ∧
      (∀ line ∈ stats.details,
        line.Invested = sumAmount rows (line.Ticker, line.Type') ∧
        line.Quantity = sumQuantity rows (line.Ticker, line.Type'))) ∧
    (∃ stats2, get_portfolio_stats price (some [btcTx1, btcTx2]) = some stats2 ∧
      stats2.details.map (fun l => (l.Ticker, l.Type', l.Invested, l.Quantity)) =
        [(strBTC, strCrypto, (150 : ℚ), (3 / 200 : ℚ))]) := by
  constructor
  · refine ⟨_, gps_some price hne, ?_, ?_, ?_⟩
    all_goals
      have hperm := get_transactions_perm rows
      have hmapkey : (mkStats price (get_transactions (some rows))).details.map
          (fun l => (l.Ticker, l.Type')) = groupKeys (get_transactions (some rows)) := by
        rw [mkStats_details, List.map_map]
        have hcomp : ((fun l : Line => (l.Ticker, l.Type')) ∘ mkLine price) =
            (fun g : GroupRow => (g.ticker, g.asset_type)) := rfl
        rw [hcomp, groupby_map_key]
    · rw [hmapkey]
      exact groupKeys_nodup _
    · intro t ht
      rw [hmapkey, mem_groupKeys]
      exact List.mem_map_of_mem txnKey (hperm.mem_iff.mpr ht)
    · intro line hline
      rw [mkStats_details] at hline
      obtain ⟨g, hg, rfl⟩ := List.mem_map.mp hline
      obtain ⟨k, hk, rfl⟩ := List.mem_map.mp hg
      exact ⟨sumAmount_perm hperm k, sumQuantity_perm hperm k⟩
  · have hperm2 := get_transactions_perm [btcTx1, btcTx2]
    have hkeymap : (get_transactions (some [btcTx1, btcTx2])).map txnKey =
        [(strBTC, strCrypto), (strBTC, strCrypto)] := by
      have hrepl : (get_transactions (some [btcTx1, btcTx2])).map txnKey =
          List.replicate 2 (strBTC, strCrypto) := by
        rw [List.eq_replicate_iff]
        constructor
        · rw [List.length_map, hperm2.length_eq]
          rfl
        · intro b hb
          obtain ⟨t, ht, rfl⟩ := List.mem_map.mp hb
          have := hperm2.mem_iff.mp ht
          rcases List.mem_cons.mp this with h1 | h1
          · rw [h1]; rfl
          · rw [List.mem_singleton.mp h1]; rfl
      rw [hrepl]
      rfl
    have hkeys : groupKeys (get_transactions (some [btcTx1, btcTx2])) =
        [(strBTC, strCrypto)] := by
      unfold groupKeys
      rw [hkeymap]
      have hded : ([(strBTC, strCrypto), (strBTC, strCrypto)] : List (Str × Str)).dedup =
          [(strBTC, strCrypto)] := by
        rw [List.dedup_cons_of_mem (List.mem_singleton.mpr rfl)]
        rfl
      rw [hded, List.mergeSort_singleton]
    have hgb : groupby (get_transactions (some [btcTx1, btcTx2])) =
        [{ ticker := strBTC, asset_type := strCrypto,
           amount := sumAmount (get_transactions (some [btcTx1, btcTx2])) (strBTC, strCrypto),
           quantity :=
             sumQuantity (get_transactions (some [btcTx1, btcTx2])) (strBTC, strCrypto) }] := by
      unfold groupby
      rw [hkeys]
      rfl
    have hsa : sumAmount [btcTx1, btcTx2] (strBTC, strCrypto) = 150 := by
      norm_num [sumAmount, List.filter_cons, txnKey, btcTx1, btcTx2]
    have hsq : sumQuantity [btcTx1, btcTx2] (strBTC, strCrypto) = 3 / 200 := by
      norm_num [sumQuantity, List.filter_cons, txnKey, btcTx1, btcTx2]
    refine ⟨_, gps_some price (List.cons_ne_nil btcTx1 [btcTx2]), ?_⟩
    rw [mkStats_details, hgb]
    simp only [List.map_cons, List.map_nil, mkLine_Ticker, mkLine_Type, mkLine_Invested,
      mkLine_Quantity]
    rw [sumAmount_perm hperm2 (strBTC, strCrypto), sumQuantity_perm hperm2 (strBTC, strCrypto),
      hsa, hsq]

/-- Witness for C2 at the concrete BTC example store and the
always-failing oracle. -/
theorem C2_grouping_witness :
    (∃ stats, get_portfolio_stats priceNone (some [btcTx1, btcTx2]) = some stats ∧
      (stats.details.map (fun l => (l.Ticker, l.Type'))).Nodup ∧
      (∀ t ∈ [btcTx1, btcTx2], (t.ticker, t.asset_type) ∈
        stats.details.map (fun l => (l.Ticker, l.Type'))) ∧
      (∀ line ∈ stats.details,
        line.Invested = sumAmount [btcTx1, btcTx2] (line.Ticker, line.Type') ∧
        line.Quantity = sumQuantity [btcTx1, btcTx2] (line.Ticker, line.Type'))) ∧
    (∃ stats2, get_portfolio_stats priceNone (some [btcTx1, btcTx2]) = some stats2 ∧
      stats2.details.map (fun l => (l.Ticker, l.Type', l.Invested, l.Quantity)) =
        [(strBTC, strCrypto, (150 : ℚ), (3 / 200 : ℚ))]) :=
  C2_grouping [btcTx1, btcTx2] priceNone (List.cons_ne_nil btcTx1 [btcTx2])

def maZZZ : ManagedAsset :=
  { id := ['1'], ticker := ['Z', 'Z', 'Z'], asset_type := strCrypto }

def maAAA : ManagedAsset :=
  { id := ['2'], ticker := ['A', 'A', 'A'], asset_type := strStock }

/-- Claim C9, counterexample: with the stored assets ZZZ/Crypto and
AAA/Stock and no filter, `get_managed_assets` returns the list sorted by
ticker alone ([AAA/Stock, ZZZ/Crypto]), which is not sorted by the pair
(asset_type, ticker) — "Crypto" sorts before "Stock", so ZZZ/Crypto
would have to come first. -/
theorem C9_counterexample :
    ¬ (get_managed_assets (some [maZZZ, maAAA]) none).Pairwise
      (fun a b => a.asset_type < b.asset_type ∨
        (a.asset_type = b.asset_type ∧ a.ticker ≤ b.ticker)) := by
  have hres : get_managed_assets (some [maZZZ, maAAA]) none = [maAAA, maZZZ] := by
    have hcmp : tickerAscBool maZZZ maAAA = false := by decide
    simp [get_managed_assets, List.mergeSort, List.merge, hcmp]
  rw [hres]
  intro hpw
  have hrel := (List.pairwise_cons.mp hpw).1 maZZZ (List.mem_singleton.mpr rfl)
  rcases hrel with h | ⟨h, _⟩
  · exact absurd h (by decide)
  · exact absurd h (by decide)

/-- Claim C9, amended: `get_managed_assets` without a filter returns all
assets sorted by ticker alone (not by the pair (asset_type, ticker)),
and with a (non-empty) asset_type filter returns exactly the assets of
that type, also sorted by ticker. -/
theorem C9_sorted_by_ticker (rows : List ManagedAsset) (t : Str) (hne : t ≠ []) :
    ((get_managed_assets (some rows) none).Perm rows ∧
      (get_managed_assets (some rows) none).Pairwise (fun a b => a.ticker ≤ b.ticker)) ∧
    ((get_managed_assets (some rows) (some t)).Perm
        (rows.filter (fun r => r.asset_type = t)) ∧
      (get_managed_assets (some rows) (some t)).Pairwise
        (fun a b => a.ticker ≤ b.ticker)) := by
  have htrans : ∀ a b c : ManagedAsset,
      tickerAscBool a b → tickerAscBool b c → tickerAscBool a c := by
    intro a b c hab hbc
    exact decide_eq_true (le_trans (of_decide_eq_true hab) (of_decide_eq_true hbc))
  have htotal : ∀ a b : ManagedAsset, tickerAscBool a b || tickerAscBool b a := by
    intro a b
    simp only [tickerAscBool, Bool.or_eq_true, decide_eq_true_eq]
    exact le_total a.ticker b.ticker
  have hsorted : ∀ l : List ManagedAsset,
      (l.mergeSort tickerAscBool).Pairwise (fun a b => a.ticker ≤ b.ticker) := fun l =>
    (List.sorted_mergeSort htrans htotal l).imp fun h => of_decide_eq_true h
  by_cases hrows : rows = []
  · subst hrows
    refine ⟨⟨?_, ?_⟩, ?_, ?_⟩ <;> simp [get_managed_assets]
  · have hnemp : ¬ (rows.isEmpty = true) := by
      rw [List.isEmpty_iff]
      exact hrows
    have e1 : get_managed_assets (some rows) none = rows.mergeSort tickerAscBool := by
      show (if rows.isEmpty then [] else rows.mergeSort tickerAscBool) = _
      rw [if_neg hnemp]
    have e2 : get_managed_assets (some rows) (some t) =
        (rows.filter (fun r => r.asset_type = t)).mergeSort tickerAscBool := by
      show (if rows.isEmpty then []
        else (if t = [] then rows
          else rows.filter (fun r => r.asset_type = t)).mergeSort tickerAscBool) = _
      rw [if_neg hnemp, if_neg hne]
    refine ⟨⟨?_, ?_⟩, ?_, ?_⟩
    · rw [e1]; exact List.mergeSort_perm rows tickerAscBool
    · rw [e1]; exact hsorted rows
    · rw [e2]; exact List.mergeSort_perm _ tickerAscBool
    · rw [e2]; exact hsorted _

/-- Witness for C9 at the two-asset store and the filter "Stock". -/
theorem C9_sorted_by_ticker_witness :
    ((get_managed_assets (some [maZZZ, maAAA]) none).Perm [maZZZ, maAAA] ∧
      (get_managed_assets (some [maZZZ, maAAA]) none).Pairwise
        (fun a b => a.ticker ≤ b.ticker)) ∧
    ((get_managed_assets (some [maZZZ, maAAA]) (some strStock)).Perm
        ([maZZZ, maAAA].filter (fun r => r.asset_type = strStock)) ∧
      (get_managed_assets (some [maZZZ, maAAA]) (some strStock)).Pairwise
        (fun a b => a.ticker ≤ b.ticker)) :=
  C9_sorted_by_ticker [maZZZ, maAAA] strStock (List.cons_ne_nil 'S' ['t', 'o', 'c', 'k'])
